import Mathlib

/-!
Shallow embedding of the dispatch and invocation layer of the contracts
pallet (src/pallets/contracts/src/lib.rs): origins, the re-entrancy guard
around contract execution, the migration guard on the state-mutating
dispatchables, revert-flag conversion, privileged code replacement,
code upload deposit limits, the migrate dispatchable and the on_idle hook.

The execution stack, gas meter internals, wasm module handling and the
migration stepper live in sibling modules that are not part of the given
sources; they enter the model as explicit function parameters, or as
definitions modelled from the specification where noted.
-/

namespace Contracts

abbrev AccountId := Nat

abbrev CodeHash := Nat

abbrev Balance := Nat

abbrev Weight := Nat

/-- Determinism flag of uploaded code (lib.rs uses it for upload and call). -/
inductive Determinism where
  | Enforced
  | Relaxed
deriving DecidableEq, Repr

/-- The pallet error enum (the variants reached by the embedded fragment of lib.rs). -/
inductive Error where
  | ContractNotFound
  | CodeNotFound
  | CodeInUse
  | ReentranceDenied
  | MigrationInProgress
  | NoMigrationPerformed
  | ContractReverted
  | StorageDepositLimitExhausted
deriving DecidableEq, Repr

/-- Runtime dispatch errors: pallet module errors plus the sp-runtime
variants used by lib.rs (BadOrigin, RootNotAllowed). -/
inductive DispatchError where
  | Module (e : Error)
  | BadOrigin
  | RootNotAllowed
deriving DecidableEq, Repr

/-- frame_system RawOrigin: Root, Signed, or none. -/
inductive RawOrigin where
  | Root
  | Signed (a : AccountId)
  | NoneOrigin
deriving DecidableEq, Repr

/-- The type of origins supported by the contracts pallet (lib.rs, enum Origin). -/
inductive Origin where
  | Root
  | Signed (a : AccountId)
deriving DecidableEq, Repr

/-- Creates a new Origin from a RuntimeOrigin (lib.rs, Origin::from_runtime_origin). -/
def Origin.from_runtime_origin : RawOrigin → Except DispatchError Origin
  | .Root => .ok .Root
  | .Signed t => .ok (.Signed t)
  | .NoneOrigin => .error .BadOrigin

/-- Creates a new Signed Caller from an AccountId (lib.rs, Origin::from_account_id). -/
def Origin.from_account_id (a : AccountId) : Origin := .Signed a

/-- Returns the AccountId of a Signed Origin or an error if the origin is Root
(lib.rs, Origin::account_id). -/
def Origin.account_id : Origin → Except DispatchError AccountId
  | .Signed a => .ok a
  | .Root => .error .RootNotAllowed

/-- frame_system ensure_signed. -/
def ensure_signed : RawOrigin → Except DispatchError AccountId
  | .Signed a => .ok a
  | _ => .error .BadOrigin

/-- frame_system ensure_root. -/
def ensure_root : RawOrigin → Except DispatchError Unit
  | .Root => .ok ()
  | _ => .error .BadOrigin

/-- Modelled from the spec: the Compute Meter with a total limit and the
amount consumed so far (gas.rs is not under src/; lib.rs only constructs
fresh meters with GasMeter::new and reads gas_consumed). -/
structure GasMeter where
  gas_limit : Weight
  consumed : Weight
deriving DecidableEq, Repr

def GasMeter.new (l : Weight) : GasMeter := ⟨l, 0⟩

def GasMeter.gas_consumed (g : GasMeter) : Weight := g.consumed

/-- WeightMeter with a limit and the weight consumed so far (frame WeightMeter,
used by on_idle and migrate in lib.rs). -/
structure WeightMeter where
  limit : Weight
  consumed : Weight
deriving DecidableEq, Repr

def WeightMeter.with_limit (l : Weight) : WeightMeter := ⟨l, 0⟩

/-- Modelled from the spec: the result envelope reports the storage deposit
as Charge(amount) or Refund(amount); the default value is a zero charge
(primitives crate not under src/). -/
inductive StorageDeposit where
  | Charge (n : Balance)
  | Refund (n : Balance)
deriving DecidableEq, Repr

instance : Inhabited StorageDeposit := ⟨.Charge 0⟩

/-- Modelled from the spec: netting of charges and refunds in the storage
deposit ledger, saturating at zero (primitives crate not under src/). -/
def StorageDeposit.saturating_add : StorageDeposit → StorageDeposit → StorageDeposit
  | .Charge a, .Charge b => .Charge (a + b)
  | .Refund a, .Refund b => .Refund (a + b)
  | .Charge a, .Refund b => if b ≤ a then .Charge (a - b) else .Refund (b - a)
  | .Refund a, .Charge b => if a ≤ b then .Charge (b - a) else .Refund (a - b)

/-- Modelled from the spec: the payload returned by executed code, whose flags
carry the code-chosen revert bit (primitives crate not under src/). -/
structure ExecReturnValue where
  flags : Nat
  data : List Nat
deriving DecidableEq, Repr

/-- Modelled from the spec: explicit revert is a successful outcome with the
revert flag set; REVERT is the low bit of the return flags. -/
def ExecReturnValue.did_revert (r : ExecReturnValue) : Bool := r.flags % 2 == 1

/-- Which frame an execution error originated from (exec.rs ErrorOrigin). -/
inductive ErrorOrigin where
  | Caller
  | Callee
deriving DecidableEq, Repr

/-- An execution error: a dispatch error plus its origin (exec.rs ExecError). -/
structure ExecError where
  error : DispatchError
  origin : ErrorOrigin
deriving DecidableEq, Repr

/-- Return type of the private helper functions of lib.rs (InternalOutput). -/
structure InternalOutput (O : Type) where
  gas_meter : GasMeter
  storage_deposit : StorageDeposit
  result : Except ExecError O

/-- Context of a contract invocation (lib.rs, CommonInput; the debug buffer
is omitted). -/
structure CommonInput where
  origin : Origin
  value : Balance
  data : List Nat
  gas_limit : Weight
  storage_deposit_limit : Option Balance

inductive Pays where
  | Yes
  | No
deriving DecidableEq, Repr

structure PostDispatchInfo where
  actual_weight : Option Weight
  pays_fee : Pays
deriving DecidableEq, Repr

structure DispatchErrorWithPostInfo where
  post_info : PostDispatchInfo
  error : DispatchError
deriving DecidableEq, Repr

abbrev DispatchResultWithPostInfo := Except DispatchErrorWithPostInfo PostDispatchInfo

/-- Modelled from the spec: converting an engine result into a dispatch
result, always reporting the exact compute consumed on top of the base
weight, also on failure (gas.rs into_dispatch_result is not under src/). -/
def GasMeter.into_dispatch_result {R : Type} (gm : GasMeter) (result : Except ExecError R)
    (base_weight : Weight) : DispatchResultWithPostInfo :=
  let post_info : PostDispatchInfo := ⟨some (gm.gas_consumed + base_weight), .Yes⟩
  match result with
  | .ok _ => .ok post_info
  | .error e => .error ⟨post_info, e.error⟩

/-- Modelled from the spec: a contract account stores its bound code hash,
its isolated storage namespace id and the deposit held (storage.rs is not
under src/; lib.rs reads and rebinds the code_hash field). -/
structure ContractInfo where
  trie_id : Nat
  code_hash : CodeHash
  deposit_held : Balance
deriving DecidableEq, Repr

/-- Modelled from the spec: a code entry records its owner, its deposit, its
reference count and the determinism flag (wasm module not under src/). -/
structure CodeInfo where
  owner : AccountId
  deposit : Balance
  refcount : Nat
  determinism : Determinism
deriving DecidableEq, Repr

/-- The pallet storage touched by the embedded fragment: ContractInfoOf,
CodeInfoOf and the MigrationInProgress cursor. -/
structure State where
  contractInfoOf : AccountId → Option ContractInfo
  codeInfoOf : CodeHash → Option CodeInfo
  migrationInProgress : Option Nat

def State.refcountOf (st : State) (h : CodeHash) : Nat :=
  match st.codeInfoOf h with
  | some info => info.refcount
  | none => 0

/-- A migration is in progress while the cursor is present (migration.rs
in_progress; semantics fixed by the MigrationInProgress storage item of
lib.rs). -/
def Migration.in_progress (st : State) : Bool := st.migrationInProgress.isSome

/-- Modelled from the spec: ensure_migrated fails fast with the
MigrationInProgress error while a migration cursor is present
(migration.rs is not under src/). -/
def Migration.ensure_migrated (st : State) : Except DispatchError Unit :=
  if Migration.in_progress st then .error (.Module .MigrationInProgress) else .ok ()

/-- A validated wasm module; only its content hash is observed by lib.rs. -/
structure WasmModule where
  code_hash : CodeHash
deriving DecidableEq, Repr

/-- Reference to an existing code hash or a new wasm module (lib.rs, WasmCode). -/
inductive WasmCode where
  | Wasm (m : WasmModule)
  | CodeHash (h : CodeHash)

/-- Code passed to bare_instantiate: fresh bytes or an existing hash. -/
inductive Code where
  | Upload (code : List Nat)
  | Existing (h : CodeHash)

structure InstantiateReturnValue where
  result : ExecReturnValue
  account_id : AccountId
deriving DecidableEq, Repr

/-- The result envelope of the bare entry points (ContractResult of the
primitives crate, restricted to the fields the claims are about). -/
structure ContractResult (R : Type) where
  gas_consumed : Weight
  storage_deposit : StorageDeposit
  result : Except DispatchError R

structure CodeUploadReturnValue where
  code_hash : CodeHash
  deposit : Balance
deriving DecidableEq, Repr

/-- Single entry point to contract execution (lib.rs, Invokable::run_guarded).
The origin check runs first; then the process-scoped executing_contract flag
is consulted: if it is already set the invocation fails with ReentranceDenied
and a fresh, untouched gas meter and default storage deposit; otherwise the
Invokable-specific run is entered with a fresh gas meter. -/
def Invokable.run_guarded {O : Type}
    (ensure_origin : Origin → Except DispatchError Unit)
    (run : CommonInput → GasMeter → State → InternalOutput O × State)
    (executing_contract : Bool) (common : CommonInput) (st : State) :
    InternalOutput O × State :=
  let gas_limit := common.gas_limit
  match ensure_origin common.origin with
  | .error e => (⟨GasMeter.new gas_limit, .Charge 0, .error ⟨e, .Caller⟩⟩, st)
  | .ok _ =>
    if executing_contract then
      (⟨GasMeter.new gas_limit, .Charge 0, .error ⟨.Module .ReentranceDenied, .Caller⟩⟩, st)
    else
      run common (GasMeter.new gas_limit) st

/-- CallInput::ensure_origin accepts every origin (lib.rs). -/
def CallInput.ensure_origin (_ : Origin) : Except DispatchError Unit := .ok ()

/-- InstantiateInput::ensure_origin rejects the Root origin (lib.rs). -/
def InstantiateInput.ensure_origin : Origin → Except DispatchError Unit
  | .Signed _ => .ok ()
  | .Root => .error .RootNotAllowed

/-- Modelled from the spec: bind(hash) increments the reference count of a
code entry; it fails with CodeNotFound when no entry exists under the hash,
leaving everything unchanged (wasm module not under src/; the failure case
is fixed by the set_code documentation in lib.rs). -/
def ExecStack.increment_refcount (code_hash : CodeHash) (st : State) :
    Except DispatchError State :=
  match st.codeInfoOf code_hash with
  | none => .error (.Module .CodeNotFound)
  | some info =>
    .ok { st with codeInfoOf := fun k =>
            if k = code_hash then some { info with refcount := info.refcount + 1 }
            else st.codeInfoOf k }

/-- Modelled from the spec: unbind(hash) decrements the reference count of a
code entry when a contract stops using the code; it is infallible, a missing
entry is ignored (wasm module not under src/). -/
def ExecStack.decrement_refcount (code_hash : CodeHash) (st : State) : State :=
  match st.codeInfoOf code_hash with
  | none => st
  | some info =>
    { st with codeInfoOf := fun k =>
        if k = code_hash then some { info with refcount := info.refcount - 1 }
        else st.codeInfoOf k }

/-- Modelled from the spec: remove(owner, hash) fails unless the caller is
the original owner and the reference count is exactly 0; on success it
deletes the entry and releases the owner's deposit (wasm module not under
src/). -/
def WasmBlob.remove (origin : AccountId) (code_hash : CodeHash) (st : State) :
    Except DispatchError State :=
  match st.codeInfoOf code_hash with
  | none => .error (.Module .CodeNotFound)
  | some info =>
    if info.refcount ≠ 0 then .error (.Module .CodeInUse)
    else if info.owner ≠ origin then .error .BadOrigin
    else .ok { st with codeInfoOf := fun k =>
                 if k = code_hash then none else st.codeInfoOf k }

/-- Uploads new code and returns the blob and the deposit collected
(lib.rs, Pallet::try_upload_code). Validation (WasmBlob::from_code) and
storing (store_code) live outside src/ and are passed in as functions. -/
def Pallet.try_upload_code
    (from_code : List Nat → AccountId → Determinism → Except DispatchError WasmModule)
    (store_code : WasmModule → State → Except DispatchError (Balance × State))
    (origin : AccountId) (code : List Nat) (storage_deposit_limit : Option Balance)
    (determinism : Determinism) (st : State) :
    Except DispatchError (WasmModule × Balance) × State :=
  match from_code code origin determinism with
  | .error e => (.error e, st)
  | .ok wmodule =>
    match store_code wmodule st with
    | .error e => (.error e, st)
    | .ok (deposit, st1) =>
      match storage_deposit_limit with
      | some limit =>
        if deposit ≤ limit then (.ok (wmodule, deposit), st1)
        else (.error (.Module .StorageDepositLimitExhausted), st1)
      | none => (.ok (wmodule, deposit), st1)

/-- Upload new code without instantiating a contract from it
(lib.rs, Pallet::bare_upload_code). -/
def Pallet.bare_upload_code
    (from_code : List Nat → AccountId → Determinism → Except DispatchError WasmModule)
    (store_code : WasmModule → State → Except DispatchError (Balance × State))
    (origin : AccountId) (code : List Nat) (storage_deposit_limit : Option Balance)
    (determinism : Determinism) (st : State) :
    Except DispatchError CodeUploadReturnValue × State :=
  match Migration.ensure_migrated st with
  | .error e => (.error e, st)
  | .ok _ =>
    match Pallet.try_upload_code from_code store_code origin code
        storage_deposit_limit determinism st with
    | (.error e, st1) => (.error e, st1)
    | (.ok (wmodule, deposit), st1) => (.ok ⟨wmodule.code_hash, deposit⟩, st1)

/-- The upload_code dispatchable (lib.rs, call index 3); T::UploadOrigin is
EnsureSigned per the default config given in lib.rs. -/
def Pallet.upload_code
    (from_code : List Nat → AccountId → Determinism → Except DispatchError WasmModule)
    (store_code : WasmModule → State → Except DispatchError (Balance × State))
    (origin : RawOrigin) (code : List Nat) (storage_deposit_limit : Option Balance)
    (determinism : Determinism) (st : State) :
    Except DispatchError Unit × State :=
  match Migration.ensure_migrated st with
  | .error e => (.error e, st)
  | .ok _ =>
    match ensure_signed origin with
    | .error e => (.error e, st)
    | .ok a =>
      match Pallet.bare_upload_code from_code store_code a code
          storage_deposit_limit determinism st with
      | (.error e, st1) => (.error e, st1)
      | (.ok _, st1) => (.ok (), st1)

/-- The remove_code dispatchable (lib.rs, call index 4); the fee is waived
on success. -/
def Pallet.remove_code (origin : RawOrigin) (code_hash : CodeHash) (st : State) :
    DispatchResultWithPostInfo × State :=
  match Migration.ensure_migrated st with
  | .error e => (.error ⟨⟨none, .Yes⟩, e⟩, st)
  | .ok _ =>
    match ensure_signed origin with
    | .error e => (.error ⟨⟨none, .Yes⟩, e⟩, st)
    | .ok a =>
      match WasmBlob.remove a code_hash st with
      | .error e => (.error ⟨⟨none, .Yes⟩, e⟩, st)
      | .ok st1 => (.ok ⟨none, .No⟩, st1)

/-- Privileged function that changes the code of an existing contract
(lib.rs, Pallet::set_code, call index 5): root only, ContractNotFound if
dest holds no contract, otherwise increment the new hash's refcount,
decrement the old one and rebind the stored code hash; the account lookup
is the identity in this model. A failing refcount increment rolls the
whole mutation back (StorageMap try_mutate). -/
def Pallet.set_code (origin : RawOrigin) (dest : AccountId) (code_hash : CodeHash)
    (st : State) : Except DispatchError Unit × State :=
  match Migration.ensure_migrated st with
  | .error e => (.error e, st)
  | .ok _ =>
    match ensure_root origin with
    | .error e => (.error e, st)
    | .ok _ =>
      match st.contractInfoOf dest with
      | none => (.error (.Module .ContractNotFound), st)
      | some contract =>
        match ExecStack.increment_refcount code_hash st with
        | .error e => (.error e, st)
        | .ok st1 =>
          let st2 := ExecStack.decrement_refcount contract.code_hash st1
          (.ok (), { st2 with contractInfoOf := fun a =>
              if a = dest then some { contract with code_hash := code_hash }
              else st2.contractInfoOf a })

/-- The call dispatchable (lib.rs, Pallet::call, call index 6): migration
guard, origin conversion, the guarded call, conversion of a reverting
success into the ContractReverted error, and into_dispatch_result. The
CallInput::run implementation (the execution stack) is a parameter keyed
by dest and determinism. -/
def Pallet.call
    (run_c : AccountId → Determinism → CommonInput → GasMeter → State →
      InternalOutput ExecReturnValue × State)
    (executing : Bool) (origin : RawOrigin) (dest : AccountId) (value : Balance)
    (gas_limit : Weight) (storage_deposit_limit : Option Balance) (data : List Nat)
    (base_weight : Weight) (st : State) : DispatchResultWithPostInfo × State :=
  match Migration.ensure_migrated st with
  | .error e => (.error ⟨⟨none, .Yes⟩, e⟩, st)
  | .ok _ =>
    match Origin.from_runtime_origin origin with
    | .error e => (.error ⟨⟨none, .Yes⟩, e⟩, st)
    | .ok org =>
      let common : CommonInput := ⟨org, value, data, gas_limit, storage_deposit_limit⟩
      let out := Invokable.run_guarded CallInput.ensure_origin (run_c dest .Enforced)
        executing common st
      let result : Except ExecError ExecReturnValue :=
        match out.1.result with
        | .ok retval =>
          if retval.did_revert then .error ⟨.Module .ContractReverted, .Caller⟩
          else .ok retval
        | .error e => .error e
      (GasMeter.into_dispatch_result out.1.gas_meter result base_weight, out.2)

/-- Perform a call to a specified contract (lib.rs, Pallet::bare_call): the
engine-layer entry; no revert conversion, the revert flag is surfaced to
the caller inside an Ok result. -/
def Pallet.bare_call
    (run_c : AccountId → Determinism → CommonInput → GasMeter → State →
      InternalOutput ExecReturnValue × State)
    (executing : Bool) (origin dest : AccountId) (value : Balance)
    (gas_limit : Weight) (storage_deposit_limit : Option Balance) (data : List Nat)
    (determinism : Determinism) (st : State) : ContractResult ExecReturnValue × State :=
  if Migration.in_progress st then
    (⟨0, .Charge 0, .error (.Module .MigrationInProgress)⟩, st)
  else
    let common : CommonInput :=
      ⟨Origin.from_account_id origin, value, data, gas_limit, storage_deposit_limit⟩
    let out := Invokable.run_guarded CallInput.ensure_origin (run_c dest determinism)
      executing common st
    (⟨out.1.gas_meter.gas_consumed, out.1.storage_deposit,
      out.1.result.mapError ExecError.error⟩, out.2)

/-- The instantiate dispatchable (lib.rs, Pallet::instantiate, call index 8):
instantiation from a previously deployed code hash; T::InstantiateOrigin is
EnsureSigned per the default config given in lib.rs. The
InstantiateInput::run implementation is a parameter keyed by code and salt. -/
def Pallet.instantiate
    (run_i : WasmCode → List Nat → CommonInput → GasMeter → State →
      InternalOutput (AccountId × ExecReturnValue) × State)
    (executing : Bool) (origin : RawOrigin) (value : Balance) (gas_limit : Weight)
    (storage_deposit_limit : Option Balance) (code_hash : CodeHash)
    (data salt : List Nat) (base_weight : Weight) (st : State) :
    DispatchResultWithPostInfo × State :=
  match Migration.ensure_migrated st with
  | .error e => (.error ⟨⟨none, .Yes⟩, e⟩, st)
  | .ok _ =>
    match ensure_signed origin with
    | .error e => (.error ⟨⟨none, .Yes⟩, e⟩, st)
    | .ok a =>
      let common : CommonInput :=
        ⟨Origin.from_account_id a, value, data, gas_limit, storage_deposit_limit⟩
      let out := Invokable.run_guarded InstantiateInput.ensure_origin
        (run_i (.CodeHash code_hash) salt) executing common st
      let result : Except ExecError (AccountId × ExecReturnValue) :=
        match out.1.result with
        | .ok retval =>
          if retval.2.did_revert then .error ⟨.Module .ContractReverted, .Caller⟩
          else .ok retval
        | .error e => .error e
      (GasMeter.into_dispatch_result out.1.gas_meter (result.map Prod.snd) base_weight,
        out.2)

/-- The instantiate_with_code dispatchable (lib.rs, call index 7): after the
migration and origin guards the code is uploaded, the storage deposit limit
is reduced by the amount reserved for the upload, then the guarded
instantiation runs and a reverting success becomes ContractReverted. Both
condition origins are EnsureSigned per the default config given in lib.rs. -/
def Pallet.instantiate_with_code
    (from_code : List Nat → AccountId → Determinism → Except DispatchError WasmModule)
    (store_code : WasmModule → State → Except DispatchError (Balance × State))
    (run_i : WasmCode → List Nat → CommonInput → GasMeter → State →
      InternalOutput (AccountId × ExecReturnValue) × State)
    (executing : Bool) (origin : RawOrigin) (value : Balance) (gas_limit : Weight)
    (storage_deposit_limit : Option Balance) (code data salt : List Nat)
    (base_weight : Weight) (st : State) : DispatchResultWithPostInfo × State :=
  match Migration.ensure_migrated st with
  | .error e => (.error ⟨⟨none, .Yes⟩, e⟩, st)
  | .ok _ =>
    match ensure_signed origin with
    | .error e => (.error ⟨⟨none, .Yes⟩, e⟩, st)
    | .ok upload_origin =>
      match ensure_signed origin with
      | .error e => (.error ⟨⟨none, .Yes⟩, e⟩, st)
      | .ok instantiate_origin =>
        match Pallet.try_upload_code from_code store_code upload_origin code
            storage_deposit_limit .Enforced st with
        | (.error e, st1) => (.error ⟨⟨none, .Yes⟩, e⟩, st1)
        | (.ok (wmodule, upload_deposit), st1) =>
          let storage_deposit_limit :=
            storage_deposit_limit.map (fun limit => limit - upload_deposit)
          let common : CommonInput :=
            ⟨Origin.from_account_id instantiate_origin, value, data, gas_limit,
              storage_deposit_limit⟩
          let out := Invokable.run_guarded InstantiateInput.ensure_origin
            (run_i (.Wasm wmodule) salt) executing common st1
          let result : Except ExecError (AccountId × ExecReturnValue) :=
            match out.1.result with
            | .ok retval =>
              if retval.2.did_revert then .error ⟨.Module .ContractReverted, .Caller⟩
              else .ok retval
            | .error e => .error e
          (GasMeter.into_dispatch_result out.1.gas_meter (result.map Prod.snd)
            base_weight, out.2)

/-- Instantiate a new contract (lib.rs, Pallet::bare_instantiate): for
uploaded code the storage deposit limit handed to execution is reduced by
the upload deposit, and the reported storage deposit adds the upload
deposit back onto the execution's deposit; the migration guard returns a
zeroed result envelope. -/
def Pallet.bare_instantiate
    (from_code : List Nat → AccountId → Determinism → Except DispatchError WasmModule)
    (store_code : WasmModule → State → Except DispatchError (Balance × State))
    (run_i : WasmCode → List Nat → CommonInput → GasMeter → State →
      InternalOutput (AccountId × ExecReturnValue) × State)
    (executing : Bool) (origin : AccountId) (value : Balance) (gas_limit : Weight)
    (storage_deposit_limit : Option Balance) (code : Code) (data salt : List Nat)
    (st : State) : ContractResult InstantiateReturnValue × State :=
  if Migration.in_progress st then
    (⟨0, .Charge 0, .error (.Module .MigrationInProgress)⟩, st)
  else
    match code with
    | .Upload c =>
      match Pallet.try_upload_code from_code store_code origin c
          storage_deposit_limit .Enforced st with
      | (.error e, st1) => (⟨0, .Charge 0, .error e⟩, st1)
      | (.ok (wmodule, upload_deposit), st1) =>
        let sdl2 := storage_deposit_limit.map (fun limit => limit - upload_deposit)
        let common : CommonInput :=
          ⟨Origin.from_account_id origin, value, data, gas_limit, sdl2⟩
        let out := Invokable.run_guarded InstantiateInput.ensure_origin
          (run_i (.Wasm wmodule) salt) executing common st1
        (⟨out.1.gas_meter.gas_consumed,
          out.1.storage_deposit.saturating_add (.Charge upload_deposit),
          (out.1.result.map (fun p => InstantiateReturnValue.mk p.2 p.1)).mapError
            ExecError.error⟩, out.2)
    | .Existing h =>
      let common : CommonInput :=
        ⟨Origin.from_account_id origin, value, data, gas_limit, storage_deposit_limit⟩
      let out := Invokable.run_guarded InstantiateInput.ensure_origin
        (run_i (.CodeHash h) salt) executing common st
      (⟨out.1.gas_meter.gas_consumed,
        out.1.storage_deposit.saturating_add (.Charge 0),
        (out.1.result.map (fun p => InstantiateReturnValue.mk p.2 p.1)).mapError
          ExecError.error⟩, out.2)

/-- Outcome reported by one call into the migration stepper
(migration.rs MigrateResult, as consumed by on_idle and migrate in lib.rs). -/
inductive MigrateResult where
  | NoMigrationInProgress
  | NoMigrationPerformed
  | InProgress (steps_done : Nat)
  | Completed
deriving DecidableEq, Repr

/-- The migrate dispatchable (lib.rs, Pallet::migrate, call index 9): the
supplied weight limit is topped up by the base migrate weight, the stepper
runs once against a fresh meter, and its outcome decides the dispatch
result: Completed and a progressing InProgress are free successes, a
non-progressing InProgress is a paying success, and both
NoMigrationInProgress and NoMigrationPerformed become the
NoMigrationPerformed error carrying the weight consumed. The stepper
itself (migration.rs, not under src/) is a parameter. -/
def Pallet.migrate
    (mig : State → WeightMeter → MigrateResult × State × WeightMeter)
    (migrate_weight : Weight) (origin : RawOrigin) (weight_limit : Weight)
    (st : State) : DispatchResultWithPostInfo × State :=
  match ensure_signed origin with
  | .error e => (.error ⟨⟨none, .Yes⟩, e⟩, st)
  | .ok _ =>
    let weight_limit := weight_limit + migrate_weight
    match mig st (WeightMeter.with_limit weight_limit) with
    | (.Completed, st1, m) => (.ok ⟨some m.consumed, .No⟩, st1)
    | (.InProgress (_ + 1), st1, m) => (.ok ⟨some m.consumed, .No⟩, st1)
    | (.InProgress 0, st1, m) => (.ok ⟨some m.consumed, .Yes⟩, st1)
    | (.NoMigrationInProgress, st1, m) =>
      (.error ⟨⟨some m.consumed, .Yes⟩, .Module .NoMigrationPerformed⟩, st1)
    | (.NoMigrationPerformed, st1, m) =>
      (.error ⟨⟨some m.consumed, .Yes⟩, .Module .NoMigrationPerformed⟩, st1)

/-- The migration loop of the on_idle hook (lib.rs, Hooks::on_idle): keep
stepping while the stepper makes progress; stop on any other outcome. The
fuel bounds the recursion; none means the bound was hit. -/
def Hooks.on_idle_loop
    (mig : State → WeightMeter → MigrateResult × State × WeightMeter) :
    Nat → State → WeightMeter → Option (MigrateResult × State × WeightMeter)
  | 0, _, _ => none
  | fuel + 1, st, meter =>
    match mig st meter with
    | (.InProgress (_ + 1), st1, m1) => Hooks.on_idle_loop mig fuel st1 m1
    | other => some other

/-- The on_idle hook (lib.rs, Hooks::on_idle): a weight meter with the given
limit is fed to the migration loop; NoMigrationPerformed or a
non-progressing InProgress return the consumed weight at once, while
Completed or NoMigrationInProgress let the deletion queue batch run with
the remaining weight. The deletion queue processor
(ContractInfo::process_deletion_queue_batch, storage.rs, not under src/)
is a parameter. -/
def Hooks.on_idle
    (mig : State → WeightMeter → MigrateResult × State × WeightMeter)
    (dq : State → WeightMeter → State × WeightMeter)
    (fuel : Nat) (st : State) (limit : Weight) : Option (Weight × State) :=
  match Hooks.on_idle_loop mig fuel st (WeightMeter.with_limit limit) with
  | none => none
  | some (.NoMigrationPerformed, st1, m1) => some (m1.consumed, st1)
  | some (.InProgress _, st1, m1) => some (m1.consumed, st1)
  | some (_, st1, m1) =>
    let r := dq st1 m1
    some (r.2.consumed, r.1)

/-- Encoding of an optional deposit limit as payload data, used by probe
executions in the theorems below. -/
def encodeLimit : Option Balance → List Nat
  | none => [0]
  | some l => [1, l]

/-- Encoding of an optional deposit limit as a number, used by probe
executions in the theorems below. -/
def encodeLimitNat : Option Balance → Nat
  | none => 0
  | some l => l + 1

/-- An empty concrete state, used by witnesses and counterexamples. -/
def st0 : State :=
  { contractInfoOf := fun _ => none
    codeInfoOf := fun _ => none
    migrationInProgress := none }

/-- A concrete state holding one contract and two code entries, used by
witnesses. -/
def st1 : State :=
  { contractInfoOf := fun a => if a = 4 then some ⟨11, 20, 3⟩ else none
    codeInfoOf := fun h =>
      if h = 20 then some ⟨1, 9, 1, .Enforced⟩
      else if h = 21 then some ⟨2, 9, 0, .Enforced⟩
      else none
    migrationInProgress := none }

/-- A concrete state with a migration cursor present, used by witnesses. -/
def stMig : State := { st0 with migrationInProgress := some 0 }

/-- A trivial call-run implementation used as a concrete probe input by
witnesses and counterexamples (it is never reached in those statements). -/
def probeRunC : CommonInput → GasMeter → State →
    InternalOutput ExecReturnValue × State :=
  fun _ gm s => (⟨gm, .Charge 0, .error ⟨.BadOrigin, .Caller⟩⟩, s)

/-- A trivial instantiate-run implementation used as a concrete probe input
by witnesses and counterexamples (it is never reached in those
statements). -/
def probeRunI : CommonInput → GasMeter → State →
    InternalOutput (AccountId × ExecReturnValue) × State :=
  fun _ gm s => (⟨gm, .Charge 0, .error ⟨.BadOrigin, .Caller⟩⟩, s)

/-- C10: the origin check for a top-level call never fails:
CallInput::ensure_origin accepts every origin, so a Root origin and any
signed origin may perform a call, in contrast to instantiation which
rejects Root; origins that are neither Root nor Signed are rejected
earlier by Origin::from_runtime_origin with BadOrigin. -/
theorem pallet_C10 :
    (∀ o : Origin, CallInput.ensure_origin o = .ok ()) ∧
    (Origin.from_runtime_origin .Root = .ok .Root) ∧
    (∀ a : AccountId, Origin.from_runtime_origin (.Signed a) = .ok (.Signed a)) ∧
    (Origin.from_runtime_origin .NoneOrigin = .error .BadOrigin) ∧
    (InstantiateInput.ensure_origin .Root = .error .RootNotAllowed) :=
  ⟨fun _ => rfl, rfl, fun _ => rfl, rfl, rfl⟩

/-- C5: an instantiation whose origin is Root is rejected by the origin
check with RootNotAllowed before any execution (the output does not depend
on the run implementation and the state is unchanged), while a signed
origin passes the instantiate origin check. -/
theorem pallet_C5
    (run_i : CommonInput → GasMeter → State →
      InternalOutput (AccountId × ExecReturnValue) × State)
    (executing : Bool) (common : CommonInput) (st : State)
    (h : common.origin = .Root) :
    Invokable.run_guarded InstantiateInput.ensure_origin run_i executing common st =
      (⟨GasMeter.new common.gas_limit, .Charge 0,
        .error ⟨.RootNotAllowed, .Caller⟩⟩, st) ∧
    (∀ a : AccountId, InstantiateInput.ensure_origin (.Signed a) = .ok ()) := by
  refine ⟨?_, fun _ => rfl⟩
  simp [Invokable.run_guarded, h, InstantiateInput.ensure_origin]

theorem pallet_C5_witness :
    Invokable.run_guarded InstantiateInput.ensure_origin
        probeRunI
        false ⟨.Root, 0, [], 5, none⟩ st0 =
      (⟨GasMeter.new 5, .Charge 0, .error ⟨.RootNotAllowed, .Caller⟩⟩, st0) :=
  (pallet_C5 probeRunI
    false ⟨.Root, 0, [], 5, none⟩ st0 rfl).1

/-- C1 (amended): an invocation entered through run_guarded while the
executing_contract flag is set fails immediately with ReentranceDenied,
with a fresh untouched gas meter, the default zero storage deposit and an
unchanged state — unconditionally for a call, and for an instantiation
provided its origin check passes (a Root instantiation is rejected by the
earlier origin check with RootNotAllowed instead, see the
counterexample). -/
theorem pallet_C1
    (run_c : CommonInput → GasMeter → State → InternalOutput ExecReturnValue × State)
    (run_i : CommonInput → GasMeter → State →
      InternalOutput (AccountId × ExecReturnValue) × State)
    (common : CommonInput) (st : State) :
    (Invokable.run_guarded CallInput.ensure_origin run_c true common st =
      (⟨GasMeter.new common.gas_limit, .Charge 0,
        .error ⟨.Module .ReentranceDenied, .Caller⟩⟩, st)) ∧
    (∀ a : AccountId, common.origin = .Signed a →
      Invokable.run_guarded InstantiateInput.ensure_origin run_i true common st =
        (⟨GasMeter.new common.gas_limit, .Charge 0,
          .error ⟨.Module .ReentranceDenied, .Caller⟩⟩, st)) := by
  refine ⟨rfl, fun a ha => ?_⟩
  simp [Invokable.run_guarded, ha, InstantiateInput.ensure_origin]

theorem pallet_C1_witness :
    Invokable.run_guarded InstantiateInput.ensure_origin
        probeRunI
        true ⟨.Signed 1, 0, [], 5, none⟩ st0 =
      (⟨GasMeter.new 5, .Charge 0,
        .error ⟨.Module .ReentranceDenied, .Caller⟩⟩, st0) :=
  (pallet_C1 probeRunC
    probeRunI
    ⟨.Signed 1, 0, [], 5, none⟩ st0).2 1 rfl

/-- C1 counterexample: an instantiation entered through run_guarded with a
Root origin while the executing_contract flag is set fails with
RootNotAllowed, not with ReentranceDenied, refuting the claim as stated. -/
theorem pallet_C1_counterexample :
    (Invokable.run_guarded InstantiateInput.ensure_origin
        probeRunI
        true ⟨.Root, 0, [], 5, none⟩ st0).1.result =
      .error ⟨.RootNotAllowed, .Caller⟩ ∧
    (Invokable.run_guarded InstantiateInput.ensure_origin
        probeRunI
        true ⟨.Root, 0, [], 5, none⟩ st0).1.result ≠
      .error ⟨.Module .ReentranceDenied, .Caller⟩ := by
  refine ⟨rfl, ?_⟩
  simp [Invokable.run_guarded, InstantiateInput.ensure_origin]

/-- C2: while a migration cursor is present, each of the state-mutating
entry points call, instantiate, instantiate_with_code, upload_code,
remove_code and set_code returns the MigrationInProgress error before
performing any other work (the outcome does not depend on any of the
execution or upload parameters) and leaves the state unchanged. -/
theorem pallet_C2 (st : State) (hm : Migration.in_progress st = true) :
    (∀ run_c executing origin dest value gas sdl data base,
      Pallet.call run_c executing origin dest value gas sdl data base st =
        (.error ⟨⟨none, .Yes⟩, .Module .MigrationInProgress⟩, st)) ∧
    (∀ run_i executing origin value gas sdl ch data salt base,
      Pallet.instantiate run_i executing origin value gas sdl ch data salt base st =
        (.error ⟨⟨none, .Yes⟩, .Module .MigrationInProgress⟩, st)) ∧
    (∀ fc sc run_i executing origin value gas sdl code data salt base,
      Pallet.instantiate_with_code fc sc run_i executing origin value gas sdl
          code data salt base st =
        (.error ⟨⟨none, .Yes⟩, .Module .MigrationInProgress⟩, st)) ∧
    (∀ fc sc origin code sdl det,
      Pallet.upload_code fc sc origin code sdl det st =
        (.error (.Module .MigrationInProgress), st)) ∧
    (∀ origin ch,
      Pallet.remove_code origin ch st =
        (.error ⟨⟨none, .Yes⟩, .Module .MigrationInProgress⟩, st)) ∧
    (∀ origin dest ch,
      Pallet.set_code origin dest ch st =
        (.error (.Module .MigrationInProgress), st)) := by
  refine ⟨?_, ?_, ?_, ?_, ?_, ?_⟩ <;> intros <;>
    simp [Pallet.call, Pallet.instantiate, Pallet.instantiate_with_code,
      Pallet.upload_code, Pallet.remove_code, Pallet.set_code,
      Migration.ensure_migrated, hm]

theorem pallet_C2_witness :
    Pallet.set_code .Root 4 20 stMig = (.error (.Module .MigrationInProgress), stMig) :=
  (pallet_C2 stMig rfl).2.2.2.2.2 .Root 4 20

/-- C3: an execution that runs to completion with the revert flag set is an
Ok result carrying the flag at the engine layer (the run result, and the
result field of bare_call and bare_instantiate), while the dispatchables
call, instantiate and instantiate_with_code convert exactly that case into
the ContractReverted error (and keep a non-reverting success an Ok). -/
theorem pallet_C3 (st : State) (hm : Migration.in_progress st = false) :
    (∀ run_c a dest value gas sdl data base out st2 rv,
      run_c dest Determinism.Enforced ⟨.Signed a, value, data, gas, sdl⟩
          (GasMeter.new gas) st = (out, st2) →
      out.result = .ok rv →
      ((rv.did_revert = true →
        (Pallet.call run_c false (.Signed a) dest value gas sdl data base st).1 =
          .error ⟨⟨some (out.gas_meter.gas_consumed + base), .Yes⟩,
            .Module .ContractReverted⟩) ∧
       (rv.did_revert = false →
        (Pallet.call run_c false (.Signed a) dest value gas sdl data base st).1 =
          .ok ⟨some (out.gas_meter.gas_consumed + base), .Yes⟩) ∧
       (Pallet.bare_call run_c false a dest value gas sdl data .Enforced st).1.result =
         .ok rv)) ∧
    (∀ run_i a value gas sdl ch data salt base out st2 acc rv,
      run_i (.CodeHash ch) salt ⟨.Signed a, value, data, gas, sdl⟩
          (GasMeter.new gas) st = (out, st2) →
      out.result = .ok (acc, rv) →
      ((rv.did_revert = true →
        (Pallet.instantiate run_i false (.Signed a) value gas sdl ch data salt
            base st).1 =
          .error ⟨⟨some (out.gas_meter.gas_consumed + base), .Yes⟩,
            .Module .ContractReverted⟩) ∧
       (∀ fc sc,
        (Pallet.bare_instantiate fc sc run_i false a value gas sdl (.Existing ch)
            data salt st).1.result = .ok ⟨rv, acc⟩))) ∧
    (∀ fc sc run_i a value gas sdl code data salt base wm d st2 out st3 acc rv,
      fc code a Determinism.Enforced = .ok wm →
      sc wm st = .ok (d, st2) →
      (∀ l, sdl = some l → d ≤ l) →
      run_i (.Wasm wm) salt ⟨.Signed a, value, data, gas, sdl.map (fun l => l - d)⟩
          (GasMeter.new gas) st2 = (out, st3) →
      out.result = .ok (acc, rv) →
      rv.did_revert = true →
      (Pallet.instantiate_with_code fc sc run_i false (.Signed a) value gas sdl
          code data salt base st).1 =
        .error ⟨⟨some (out.gas_meter.gas_consumed + base), .Yes⟩,
          .Module .ContractReverted⟩) := by
  refine ⟨?_, ?_, ?_⟩
  · intro run_c a dest value gas sdl data base out st2 rv hrun hok
    have hcall :
        (Pallet.call run_c false (.Signed a) dest value gas sdl data base st).1 =
          GasMeter.into_dispatch_result out.gas_meter
            (if rv.did_revert then .error ⟨.Module .ContractReverted, .Caller⟩
             else .ok rv) base := by
      simp only [Pallet.call, Migration.ensure_migrated, hm, Bool.false_eq_true,
        if_false, Origin.from_runtime_origin, Invokable.run_guarded,
        CallInput.ensure_origin, hrun, hok]
    refine ⟨?_, ?_, ?_⟩
    · intro hrev
      rw [hcall, hrev]
      simp [GasMeter.into_dispatch_result]
    · intro hrev
      rw [hcall, hrev]
      simp [GasMeter.into_dispatch_result]
    · simp only [Pallet.bare_call, hm, Bool.false_eq_true, if_false,
        Origin.from_account_id, Invokable.run_guarded, CallInput.ensure_origin,
        hrun, hok]
      rfl
  · intro run_i a value gas sdl ch data salt base out st2 acc rv hrun hok
    constructor
    · intro hrev
      simp only [Pallet.instantiate, Migration.ensure_migrated, hm,
        Bool.false_eq_true, if_false, ensure_signed, Origin.from_account_id,
        Invokable.run_guarded, InstantiateInput.ensure_origin, hrun, hok, hrev,
        if_true]
      simp [GasMeter.into_dispatch_result, Except.map]
    · intro fc sc
      simp only [Pallet.bare_instantiate, hm, Bool.false_eq_true, if_false,
        Origin.from_account_id, Invokable.run_guarded,
        InstantiateInput.ensure_origin, hrun, hok]
      rfl
  · intro fc sc run_i a value gas sdl code data salt base wm d st2 out st3 acc rv
      hfc hsc hlim hrun hok hrev
    have hup :
        Pallet.try_upload_code fc sc a code sdl .Enforced st = (.ok (wm, d), st2) := by
      simp only [Pallet.try_upload_code, hfc, hsc]
      cases sdl with
      | none => rfl
      | some l => simp [hlim l rfl]
    simp only [Pallet.instantiate_with_code, Migration.ensure_migrated, hm,
      Bool.false_eq_true, if_false, ensure_signed, hup, Origin.from_account_id,
      Invokable.run_guarded, InstantiateInput.ensure_origin, hrun, hok, hrev,
      if_true]
    simp [GasMeter.into_dispatch_result, Except.map]

theorem pallet_C3_witness :
    (Pallet.call
        (fun _ _ _ gm s => (⟨gm, .Charge 0, .ok ⟨1, [2]⟩⟩, s))
        false (.Signed 1) 4 0 9 none [] 3 st0).1 =
      .error ⟨⟨some 3, .Yes⟩, .Module .ContractReverted⟩ ∧
    (Pallet.bare_call
        (fun _ _ _ gm s => (⟨gm, .Charge 0, .ok ⟨1, [2]⟩⟩, s))
        false 1 4 0 9 none [] .Enforced st0).1.result = .ok ⟨1, [2]⟩ := by
  have h := (pallet_C3 st0 rfl).1
    (fun _ _ _ gm s => (⟨gm, .Charge 0, .ok ⟨1, [2]⟩⟩, s))
    1 4 0 9 none [] 3 ⟨GasMeter.new 9, .Charge 0, .ok ⟨1, [2]⟩⟩ st0 ⟨1, [2]⟩ rfl rfl
  exact ⟨h.1 rfl, h.2.2⟩

/-- C4: set_code succeeds only for a root origin and only when a contract
exists at dest; on success it rebinds the stored code hash, increments the
new hash's reference count and decrements the old one (net unchanged when
both hashes coincide), changes no other field of the contract info, no
other contract and no other reference count; with no contract at dest it
fails with ContractNotFound and changes nothing. -/
theorem pallet_C4 (st : State) (dest : AccountId) (h : CodeHash) :
    (∀ origin, (Pallet.set_code origin dest h st).1 = .ok () →
      origin = .Root ∧ (st.contractInfoOf dest).isSome = true) ∧
    (∀ c, Migration.in_progress st = false → st.contractInfoOf dest = some c →
      (st.codeInfoOf h).isSome = true →
      ((Pallet.set_code .Root dest h st).1 = .ok () ∧
       (Pallet.set_code .Root dest h st).2.contractInfoOf dest =
         some { c with code_hash := h } ∧
       (∀ a, a ≠ dest →
         (Pallet.set_code .Root dest h st).2.contractInfoOf a = st.contractInfoOf a) ∧
       (h ≠ c.code_hash →
         (Pallet.set_code .Root dest h st).2.refcountOf h = st.refcountOf h + 1 ∧
         (Pallet.set_code .Root dest h st).2.refcountOf c.code_hash =
           st.refcountOf c.code_hash - 1) ∧
       (∀ k, k ≠ h → k ≠ c.code_hash →
         (Pallet.set_code .Root dest h st).2.refcountOf k = st.refcountOf k) ∧
       (h = c.code_hash → ∀ k,
         (Pallet.set_code .Root dest h st).2.refcountOf k = st.refcountOf k))) ∧
    (Migration.in_progress st = false → st.contractInfoOf dest = none →
      Pallet.set_code .Root dest h st = (.error (.Module .ContractNotFound), st)) := by
  refine ⟨?_, ?_, ?_⟩
  · intro origin hok
    by_cases hm : Migration.in_progress st
    · simp [Pallet.set_code, Migration.ensure_migrated, hm] at hok
    · cases origin with
      | Root =>
        refine ⟨rfl, ?_⟩
        cases hdest : st.contractInfoOf dest with
        | none =>
          simp [Pallet.set_code, Migration.ensure_migrated, hm, ensure_root,
            hdest] at hok
        | some c => simp [hdest]
      | Signed a =>
        simp [Pallet.set_code, Migration.ensure_migrated, hm, ensure_root] at hok
      | NoneOrigin =>
        simp [Pallet.set_code, Migration.ensure_migrated, hm, ensure_root] at hok
  · intro c hm hdest hcode
    obtain ⟨info, hinfo⟩ := Option.isSome_iff_exists.mp hcode
    by_cases hch : h = c.code_hash
    · subst hch
      refine ⟨?_, ?_, ?_, ?_, ?_, ?_⟩
      · simp [Pallet.set_code, Migration.ensure_migrated, hm, ensure_root, hdest,
          ExecStack.increment_refcount, hinfo, ExecStack.decrement_refcount]
      · simp [Pallet.set_code, Migration.ensure_migrated, hm, ensure_root, hdest,
          ExecStack.increment_refcount, hinfo, ExecStack.decrement_refcount]
      · intro a ha
        simp [Pallet.set_code, Migration.ensure_migrated, hm, ensure_root, hdest,
          ExecStack.increment_refcount, hinfo, ExecStack.decrement_refcount, ha]
      · intro hne
        exact absurd rfl hne
      · intro k hk1 hk2
        simp [Pallet.set_code, Migration.ensure_migrated, hm, ensure_root, hdest,
          ExecStack.increment_refcount, hinfo, ExecStack.decrement_refcount,
          State.refcountOf, hk1]
      · intro _ k
        by_cases hk : k = c.code_hash
        · subst hk
          simp [Pallet.set_code, Migration.ensure_migrated, hm, ensure_root, hdest,
            ExecStack.increment_refcount, hinfo, ExecStack.decrement_refcount,
            State.refcountOf]
        · simp [Pallet.set_code, Migration.ensure_migrated, hm, ensure_root, hdest,
            ExecStack.increment_refcount, hinfo, ExecStack.decrement_refcount,
            State.refcountOf, hk]
    · have hch2 : c.code_hash ≠ h := Ne.symm hch
      cases hold : st.codeInfoOf c.code_hash with
      | none =>
        refine ⟨?_, ?_, ?_, ?_, ?_, ?_⟩
        · simp [Pallet.set_code, Migration.ensure_migrated, hm, ensure_root, hdest,
            ExecStack.increment_refcount, hinfo, ExecStack.decrement_refcount,
            hch2, hold]
        · simp [Pallet.set_code, Migration.ensure_migrated, hm, ensure_root, hdest,
            ExecStack.increment_refcount, hinfo, ExecStack.decrement_refcount,
            hch2, hold]
        · intro a ha
          simp [Pallet.set_code, Migration.ensure_migrated, hm, ensure_root, hdest,
            ExecStack.increment_refcount, hinfo, ExecStack.decrement_refcount,
            hch2, hold, ha]
        · intro _
          constructor
          · simp [Pallet.set_code, Migration.ensure_migrated, hm, ensure_root,
              hdest, ExecStack.increment_refcount, hinfo,
              ExecStack.decrement_refcount, hch2, hold, State.refcountOf]
          · simp [Pallet.set_code, Migration.ensure_migrated, hm, ensure_root,
              hdest, ExecStack.increment_refcount, hinfo,
              ExecStack.decrement_refcount, hch2, hold, State.refcountOf]
        · intro k hk1 hk2
          simp [Pallet.set_code, Migration.ensure_migrated, hm, ensure_root, hdest,
            ExecStack.increment_refcount, hinfo, ExecStack.decrement_refcount,
            hch2, hold, State.refcountOf, hk1]
        · intro hc
          exact absurd hc hch
      | some j =>
        refine ⟨?_, ?_, ?_, ?_, ?_, ?_⟩
        · simp [Pallet.set_code, Migration.ensure_migrated, hm, ensure_root, hdest,
            ExecStack.increment_refcount, hinfo, ExecStack.decrement_refcount,
            hch2, hold]
        · simp [Pallet.set_code, Migration.ensure_migrated, hm, ensure_root, hdest,
            ExecStack.increment_refcount, hinfo, ExecStack.decrement_refcount,
            hch2, hold]
        · intro a ha
          simp [Pallet.set_code, Migration.ensure_migrated, hm, ensure_root, hdest,
            ExecStack.increment_refcount, hinfo, ExecStack.decrement_refcount,
            hch2, hold, ha]
        · intro _
          constructor
          · simp [Pallet.set_code, Migration.ensure_migrated, hm, ensure_root,
              hdest, ExecStack.increment_refcount, hinfo,
              ExecStack.decrement_refcount, hch2, hold, State.refcountOf, hch]
          · simp [Pallet.set_code, Migration.ensure_migrated, hm, ensure_root,
              hdest, ExecStack.increment_refcount, hinfo,
              ExecStack.decrement_refcount, hch2, hold, State.refcountOf]
        · intro k hk1 hk2
          simp [Pallet.set_code, Migration.ensure_migrated, hm, ensure_root, hdest,
            ExecStack.increment_refcount, hinfo, ExecStack.decrement_refcount,
            hch2, hold, State.refcountOf, hk1, hk2]
        · intro hc
          exact absurd hc hch
  · intro hm hdest
    simp [Pallet.set_code, Migration.ensure_migrated, hm, ensure_root, hdest]

theorem pallet_C4_witness :
    (Pallet.set_code .Root 4 21 st1).1 = .ok () ∧
    (Pallet.set_code .Root 4 21 st1).2.contractInfoOf 4 = some ⟨11, 21, 3⟩ ∧
    (Pallet.set_code .Root 4 21 st1).2.refcountOf 21 = st1.refcountOf 21 + 1 ∧
    (Pallet.set_code .Root 4 21 st1).2.refcountOf 20 = st1.refcountOf 20 - 1 := by
  have h := (pallet_C4 st1 4 21).2.1 ⟨11, 20, 3⟩ rfl rfl rfl
  have hne : (21 : CodeHash) ≠ (⟨11, 20, 3⟩ : ContractInfo).code_hash := by decide
  exact ⟨h.1, h.2.1, (h.2.2.2.1 hne).1, (h.2.2.2.1 hne).2⟩

/-- C6: the migrate dispatchable maps both the NoMigrationInProgress and the
NoMigrationPerformed outcomes of the migration stepper to the
NoMigrationPerformed error carrying the weight actually consumed, and
returns Ok whenever the stepper reports Completed or InProgress. -/
theorem pallet_C6
    (mig : State → WeightMeter → MigrateResult × State × WeightMeter)
    (base : Weight) (a : AccountId) (weight_limit : Weight) (st st2 : State)
    (r : MigrateResult) (m2 : WeightMeter)
    (hmig : mig st (WeightMeter.with_limit (weight_limit + base)) = (r, st2, m2)) :
    ((r = .NoMigrationInProgress ∨ r = .NoMigrationPerformed) →
      Pallet.migrate mig base (.Signed a) weight_limit st =
        (.error ⟨⟨some m2.consumed, .Yes⟩, .Module .NoMigrationPerformed⟩, st2)) ∧
    (r = .Completed →
      Pallet.migrate mig base (.Signed a) weight_limit st =
        (.ok ⟨some m2.consumed, .No⟩, st2)) ∧
    (∀ k, r = .InProgress k → ∃ p,
      Pallet.migrate mig base (.Signed a) weight_limit st =
        (.ok ⟨some m2.consumed, p⟩, st2)) := by
  refine ⟨?_, ?_, ?_⟩
  · rintro (rfl | rfl) <;>
      simp [Pallet.migrate, ensure_signed, hmig]
  · rintro rfl
    simp [Pallet.migrate, ensure_signed, hmig]
  · rintro k rfl
    cases k with
    | zero => exact ⟨.Yes, by simp [Pallet.migrate, ensure_signed, hmig]⟩
    | succ n => exact ⟨.No, by simp [Pallet.migrate, ensure_signed, hmig]⟩

theorem pallet_C6_witness :
    Pallet.migrate (fun s m => (.NoMigrationInProgress, s, m)) 2 (.Signed 1) 5 st0 =
      (.error ⟨⟨some 0, .Yes⟩, .Module .NoMigrationPerformed⟩, st0) :=
  (pallet_C6 (fun s m => (.NoMigrationInProgress, s, m)) 2 1 5 st0 st0
    .NoMigrationInProgress (WeightMeter.with_limit 7) rfl).1 (Or.inl rfl)

/-- C7: an upload of code through upload_code or bare_upload_code with a
supplied storage deposit limit smaller than the deposit computed for the
code fails with StorageDepositLimitExhausted; with no limit supplied no
such check constrains the deposit and the upload succeeds. -/
theorem pallet_C7
    (fc : List Nat → AccountId → Determinism → Except DispatchError WasmModule)
    (sc : WasmModule → State → Except DispatchError (Balance × State))
    (origin : AccountId) (code : List Nat) (det : Determinism)
    (wm : WasmModule) (d : Balance) (st st2 : State)
    (hm : Migration.in_progress st = false)
    (hfc : fc code origin det = .ok wm)
    (hsc : sc wm st = .ok (d, st2)) :
    (∀ l, l < d →
      (Pallet.bare_upload_code fc sc origin code (some l) det st).1 =
        .error (.Module .StorageDepositLimitExhausted) ∧
      (Pallet.upload_code fc sc (.Signed origin) code (some l) det st).1 =
        .error (.Module .StorageDepositLimitExhausted)) ∧
    ((Pallet.bare_upload_code fc sc origin code none det st).1 =
      .ok ⟨wm.code_hash, d⟩) := by
  constructor
  · intro l hl
    have hnot : ¬ d ≤ l := Nat.not_le.mpr hl
    constructor <;>
      simp [Pallet.bare_upload_code, Pallet.upload_code, Pallet.try_upload_code,
        Migration.ensure_migrated, hm, ensure_signed, hfc, hsc, hnot]
  · simp [Pallet.bare_upload_code, Pallet.try_upload_code,
      Migration.ensure_migrated, hm, hfc, hsc]

theorem pallet_C7_witness :
    (Pallet.bare_upload_code (fun _ _ _ => .ok ⟨42⟩) (fun _ s => .ok (5, s))
        1 [9] (some 3) .Enforced st0).1 =
      .error (.Module .StorageDepositLimitExhausted) ∧
    (Pallet.bare_upload_code (fun _ _ _ => .ok ⟨42⟩) (fun _ s => .ok (5, s))
        1 [9] none .Enforced st0).1 = .ok ⟨42, 5⟩ := by
  have h := pallet_C7 (fun _ _ _ => .ok ⟨42⟩) (fun _ s => .ok (5, s)) 1 [9]
    .Enforced ⟨42⟩ 5 st0 st0 rfl rfl rfl
  exact ⟨(h.1 3 (by decide)).1, h.2⟩

/-- C9: with uploaded code, instantiate_with_code and bare_instantiate hand
contract execution a storage deposit limit equal to the caller-supplied
limit minus the upload deposit (saturating at zero), a missing limit stays
missing, and the total storage deposit reported by bare_instantiate adds
the upload deposit back onto the execution's deposit. The run parameters
are probes that surface the limit they received. -/
theorem pallet_C9
    (fc : List Nat → AccountId → Determinism → Except DispatchError WasmModule)
    (sc : WasmModule → State → Except DispatchError (Balance × State))
    (origin : AccountId) (value gas : Nat) (code data salt : List Nat)
    (sdl : Option Balance) (wm : WasmModule) (d : Balance) (st st2 : State)
    (sd0 : StorageDeposit)
    (hm : Migration.in_progress st = false)
    (hfc : fc code origin .Enforced = .ok wm)
    (hsc : sc wm st = .ok (d, st2))
    (hlim : ∀ l, sdl = some l → d ≤ l) :
    ((Pallet.bare_instantiate fc sc
        (fun _ _ common gm s =>
          (⟨gm, sd0, .ok (7, ⟨0, encodeLimit common.storage_deposit_limit⟩)⟩, s))
        false origin value gas sdl (.Upload code) data salt st).1.result =
      .ok ⟨⟨0, encodeLimit (sdl.map (fun l => l - d))⟩, 7⟩) ∧
    ((Pallet.bare_instantiate fc sc
        (fun _ _ common gm s =>
          (⟨gm, sd0, .ok (7, ⟨0, encodeLimit common.storage_deposit_limit⟩)⟩, s))
        false origin value gas sdl (.Upload code) data salt st).1.storage_deposit =
      sd0.saturating_add (.Charge d)) ∧
    ((Pallet.instantiate_with_code fc sc
        (fun _ _ common gm s =>
          (⟨gm, .Charge 0, .ok (7, ⟨0, []⟩)⟩,
            { s with
                migrationInProgress := some
                  (encodeLimitNat common.storage_deposit_limit) }))
        false (.Signed origin) value gas sdl code data salt 0
        st).2.migrationInProgress =
      some (encodeLimitNat (sdl.map (fun l => l - d)))) := by
  have hup : Pallet.try_upload_code fc sc origin code sdl .Enforced st =
      (.ok (wm, d), st2) := by
    simp only [Pallet.try_upload_code, hfc, hsc]
    cases sdl with
    | none => rfl
    | some l => simp [hlim l rfl]
  refine ⟨?_, ?_, ?_⟩ <;>
    simp [Pallet.bare_instantiate, Pallet.instantiate_with_code, hm,
      Migration.ensure_migrated, ensure_signed, hup, Invokable.run_guarded,
      InstantiateInput.ensure_origin, Origin.from_account_id, Except.map,
      Except.mapError, ExecReturnValue.did_revert]

theorem pallet_C9_witness :
    (Pallet.bare_instantiate (fun _ _ _ => .ok ⟨42⟩) (fun _ s => .ok (5, s))
        (fun _ _ common gm s =>
          (⟨gm, .Charge 2,
            .ok (7, ⟨0, encodeLimit common.storage_deposit_limit⟩)⟩, s))
        false 1 0 9 (some 7) (.Upload [9]) [] [] st0).1.result =
      .ok ⟨⟨0, [1, 2]⟩, 7⟩ :=
  (pallet_C9 (fun _ _ _ => .ok ⟨42⟩) (fun _ s => .ok (5, s)) 1 0 9 [9] [] []
    (some 7) ⟨42⟩ 5 st0 st0 (.Charge 2) rfl rfl rfl
    (fun l hl => Option.some.inj hl ▸ (by decide : (5 : Nat) ≤ 7))).1

/-- Whenever the on_idle migration loop stops, the meter it hands back still
respects its limit and the limit is unchanged, provided each stepper call
preserves both. -/
theorem on_idle_loop_meter
    (mig : State → WeightMeter → MigrateResult × State × WeightMeter)
    (Hmig : ∀ s m, m.consumed ≤ m.limit →
      (mig s m).2.2.consumed ≤ (mig s m).2.2.limit ∧ (mig s m).2.2.limit = m.limit) :
    ∀ fuel st m r st2 m2, m.consumed ≤ m.limit →
      Hooks.on_idle_loop mig fuel st m = some (r, st2, m2) →
      m2.consumed ≤ m2.limit ∧ m2.limit = m.limit := by
  intro fuel
  induction fuel with
  | zero =>
    intro st m r st2 m2 _ hloop
    simp [Hooks.on_idle_loop] at hloop
  | succ n ih =>
    intro st m r st2 m2 hm hloop
    rcases hstep : mig st m with ⟨r0, s0, m0⟩
    have h0 := Hmig st m hm
    rw [hstep] at h0
    rw [Hooks.on_idle_loop, hstep] at hloop
    cases r0 with
    | InProgress k =>
      cases k with
      | zero =>
        simp only [Option.some.injEq, Prod.mk.injEq] at hloop
        obtain ⟨_, _, hm2⟩ := hloop
        subst hm2
        exact h0
      | succ k2 =>
        have h1 := ih s0 m0 r st2 m2 h0.1 hloop
        exact ⟨h1.1, h1.2.trans h0.2⟩
    | Completed =>
      simp only [Option.some.injEq, Prod.mk.injEq] at hloop
      obtain ⟨_, _, hm2⟩ := hloop
      subst hm2
      exact h0
    | NoMigrationInProgress =>
      simp only [Option.some.injEq, Prod.mk.injEq] at hloop
      obtain ⟨_, _, hm2⟩ := hloop
      subst hm2
      exact h0
    | NoMigrationPerformed =>
      simp only [Option.some.injEq, Prod.mk.injEq] at hloop
      obtain ⟨_, _, hm2⟩ := hloop
      subst hm2
      exact h0

/-- C8: whenever the migration loop of on_idle stops with NoMigrationPerformed
or a zero-step InProgress, the hook returns the consumed weight without
touching the deletion queue (the result is the same for every queue
processor); whenever it stops with Completed or NoMigrationInProgress, the
deletion queue batch runs on the post-migration state and meter; and the
weight the hook reports never exceeds the supplied limit, provided the
stepper and the queue processor respect their meters. -/
theorem pallet_C8
    (mig : State → WeightMeter → MigrateResult × State × WeightMeter)
    (dq : State → WeightMeter → State × WeightMeter)
    (fuel : Nat) (st : State) (limit : Weight)
    (r : MigrateResult) (st2 : State) (m2 : WeightMeter)
    (hloop : Hooks.on_idle_loop mig fuel st (WeightMeter.with_limit limit) =
      some (r, st2, m2))
    (Hmig : ∀ s m, m.consumed ≤ m.limit →
      (mig s m).2.2.consumed ≤ (mig s m).2.2.limit ∧ (mig s m).2.2.limit = m.limit)
    (Hdq : ∀ s m, m.consumed ≤ m.limit →
      (dq s m).2.consumed ≤ (dq s m).2.limit ∧ (dq s m).2.limit = m.limit) :
    ((r = .NoMigrationPerformed ∨ r = .InProgress 0) →
      Hooks.on_idle mig dq fuel st limit = some (m2.consumed, st2)) ∧
    ((r = .Completed ∨ r = .NoMigrationInProgress) →
      Hooks.on_idle mig dq fuel st limit =
        some ((dq st2 m2).2.consumed, (dq st2 m2).1)) ∧
    (∀ w stF, Hooks.on_idle mig dq fuel st limit = some (w, stF) → w ≤ limit) := by
  have hinv := on_idle_loop_meter mig Hmig fuel st (WeightMeter.with_limit limit)
    r st2 m2 (Nat.zero_le _) hloop
  have hlim : m2.limit = limit := hinv.2
  refine ⟨?_, ?_, ?_⟩
  · rintro (rfl | rfl) <;> simp [Hooks.on_idle, hloop]
  · rintro (rfl | rfl) <;> simp [Hooks.on_idle, hloop]
  · intro w stF hfin
    rw [Hooks.on_idle, hloop] at hfin
    cases r with
    | NoMigrationPerformed =>
      simp only [Option.some.injEq, Prod.mk.injEq] at hfin
      obtain ⟨hw, _⟩ := hfin
      subst hw
      exact hlim ▸ hinv.1
    | InProgress k =>
      simp only [Option.some.injEq, Prod.mk.injEq] at hfin
      obtain ⟨hw, _⟩ := hfin
      subst hw
      exact hlim ▸ hinv.1
    | Completed =>
      simp only [Option.some.injEq, Prod.mk.injEq] at hfin
      obtain ⟨hw, _⟩ := hfin
      subst hw
      have hd := Hdq st2 m2 hinv.1
      exact (hlim ▸ hd.2) ▸ hd.1
    | NoMigrationInProgress =>
      simp only [Option.some.injEq, Prod.mk.injEq] at hfin
      obtain ⟨hw, _⟩ := hfin
      subst hw
      have hd := Hdq st2 m2 hinv.1
      exact (hlim ▸ hd.2) ▸ hd.1

theorem pallet_C8_witness :
    Hooks.on_idle (fun s m => (.NoMigrationInProgress, s, m)) (fun s m => (s, m))
        1 st0 3 = some (0, st0) :=
  (pallet_C8 (fun s m => (.NoMigrationInProgress, s, m)) (fun s m => (s, m))
    1 st0 3 .NoMigrationInProgress st0 (WeightMeter.with_limit 3) rfl
    (fun _ _ h => ⟨h, rfl⟩) (fun _ _ h => ⟨h, rfl⟩)).2.1 (Or.inr rfl)

end Contracts
